import Mathlib

/-!
Shallow embedding of `pyEnsemblRest` (`ensemblrest/ensemblrest.py`):
a dynamic REST client that merges default session headers at construction,
resolves `\x7b\x7btoken\x7d\x7d` URL templates with a regular expression,
enforces a fixed-window per-second rate limit, and classifies HTTP
responses into payloads or typed errors.

Python dictionaries with string keys and string values are embedded as
association lists (`Dict`) with first-match lookup; all operations below
mirror the CPython semantics used by the source (`d.update`, `del d[k]`,
`k in d`).  Wall-clock time is embedded as an exact rational clock and
`time.sleep` as an exact delay.  The HTTP response is passed to the
dispatch function as an explicit oracle value, so that everything after
the network boundary is a pure function of it.
-/

/-- Python `dict` with string keys and values, as an association list in
insertion order (first-match lookup; a well-formed dict has no duplicate
keys). -/
abbrev Dict : Type := List (String × String)

/-- Python `d.get(key)` / `d[key]`: value of the first entry with the key. -/
def dictGet : Dict → String → Option String
  | [], _ => none
  | (k, v) :: d, key => if k = key then some v else dictGet d key

/-- Python `key in d` membership test. -/
def dictHasKey (d : Dict) (key : String) : Bool :=
  (dictGet d key).isSome

/-- Python `d[key] = v`: replace the first entry with the key in place,
append at the end when the key is absent. -/
def dictSet : Dict → String → String → Dict
  | [], key, v => [(key, v)]
  | (k, w) :: d, key, v =>
      if k = key then (key, v) :: d else (k, w) :: dictSet d key v

/-- Python `d.update(e)`: assign every entry of `e` into `d` in order. -/
def dictUpdate (d e : Dict) : Dict :=
  e.foldl (fun acc p => dictSet acc p.1 p.2) d

/-- Python `del d[key]` on a dict that has the key: drop the entries with
that key. -/
def dictDel : Dict → String → Dict
  | [], _ => []
  | (k, v) :: d, key => if k = key then dictDel d key else (k, v) :: dictDel d key

/-- Character class of the regex `[a-zA-Z_]` used by the placeholder
pattern in `call_api_func`. -/
def isIdentChar (c : Char) : Bool :=
  (decide ('a' ≤ c) && decide (c ≤ 'z')) ||
  (decide ('A' ≤ c) && decide (c ≤ 'Z')) ||
  (c = '_')

/-- Maximal run of `[a-zA-Z_]` characters at the head of the input
(the greedy `[a-zA-Z_]+` of the pattern), with the remainder. -/
def takeIdent : List Char → List Char × List Char
  | [] => ([], [])
  | c :: cs =>
      if isIdentChar c then (c :: (takeIdent cs).1, (takeIdent cs).2)
      else ([], c :: cs)

/-- Match of the regex `\x7b\x7b([a-zA-Z_]+)\x7d\x7d` anchored at the
head of the input: the captured name and the input after the match. -/
def matchPlaceholder (l : List Char) : Option (String × List Char) :=
  match l with
  | c1 :: c2 :: cs =>
      if c1 = '\x7b' then
        if c2 = '\x7b' then
          if (takeIdent cs).1.isEmpty then none
          else
            match (takeIdent cs).2 with
            | d1 :: d2 :: rest =>
                if d1 = '\x7d' then
                  if d2 = '\x7d' then some (String.mk (takeIdent cs).1, rest)
                  else none
                else none
            | _ => none
        else none
      else none
  | _ => none

/-- One element of the regex scan of a template: a literal character or a
placeholder occurrence with its captured name. -/
inductive Piece where
  | lit (c : Char)
  | hole (name : String)
deriving DecidableEq

/-- Left-to-right non-overlapping scan of the input for the placeholder
pattern (the traversal shared by `re.findall` and `re.sub`), with fuel
driving the recursion; `scan` instantiates the fuel sufficiently. -/
def scanF : Nat → List Char → List Piece
  | 0, _ => []
  | _ + 1, [] => []
  | fuel + 1, c :: cs =>
      match matchPlaceholder (c :: cs) with
      | some nr => Piece.hole nr.1 :: scanF fuel nr.2
      | none => Piece.lit c :: scanF fuel cs

/-- Regex scan of a whole input. -/
def scan (l : List Char) : List Piece :=
  scanF l.length l

/-- The captured name of a placeholder piece. -/
def holeName : Piece → Option String
  | .lit _ => none
  | .hole n => some n

/-- Python `re.findall('\\\x7b\\\x7b(?P<m>[a-zA-Z_]+)\\\x7d\\\x7d', l)`:
the captured names of all matches, left to right. -/
def re_findall (l : List Char) : List String :=
  (scan l).filterMap holeName

/-- Rendering of one scanned piece under a replacement function. -/
def renderPiece (f : String → String) : Piece → List Char
  | .lit c => [c]
  | .hole n => (f n).data

/-- Python `re.sub(pattern, repl, l)` for the placeholder pattern: every
match replaced by `f name`, other characters kept. -/
def re_sub (f : String → String) (l : List Char) : List Char :=
  (scan l).foldr (fun p acc => renderPiece f p ++ acc) []

/-- Python `"%s" % v` applied to `kwargs.get(key)`: the string itself, or
the rendering of `None` when the key is absent. -/
def pyStrOpt : Option String → String
  | some s => s
  | none => "None"

/-- JSON value as produced by Python `json.loads` (numbers restricted to
integers; this model covers the bodies the client's classification logic
manipulates). -/
inductive Json where
  | null
  | bool (b : Bool)
  | num (n : Int)
  | str (s : String)
  | arr (elems : List Json)
  | obj (fields : List (String × Json))

/-- JSON whitespace skipping. -/
def skipWs : List Char → List Char
  | [] => []
  | c :: cs =>
      if c = ' ' || c = '\n' || c = '\t' || c = '\r' then skipWs cs else c :: cs

/-- Body of a JSON string literal after the opening quote: the decoded
string and the input after the closing quote.  Escape sequences are not
modelled; a backslash makes the parse fail. -/
def parseStringBody : List Char → Option (String × List Char)
  | [] => none
  | c :: cs =>
      if c = '"' then some ("", cs)
      else if c = '\\' then none
      else
        match parseStringBody cs with
        | some (s, rest) => some (String.mk (c :: s.data), rest)
        | none => none

/-- Maximal run of decimal digits at the head of the input. -/
def takeDigits : List Char → List Char × List Char
  | [] => ([], [])
  | c :: cs =>
      if c.isDigit then (c :: (takeDigits cs).1, (takeDigits cs).2)
      else ([], c :: cs)

/-- Numeric value of a digit run. -/
def digitsVal (ds : List Char) : Nat :=
  ds.foldl (fun a c => a * 10 + (c.toNat - '0'.toNat)) 0

/-- Recursive-descent JSON value parse with fuel (a member or element
list continues by re-entering the function on a re-bracketed remainder,
so a single structural recursion suffices).  Returns the value and the
unconsumed input. -/
def parseVal : Nat → List Char → Option (Json × List Char)
  | 0, _ => none
  | fuel + 1, input =>
      match skipWs input with
      | '\x7b' :: cs =>
          match skipWs cs with
          | '\x7d' :: rest => some (.obj [], rest)
          | '"' :: cs2 =>
              match parseStringBody cs2 with
              | none => none
              | some (key, cs3) =>
                  match skipWs cs3 with
                  | ':' :: cs4 =>
                      match parseVal fuel cs4 with
                      | none => none
                      | some (v, cs5) =>
                          match skipWs cs5 with
                          | ',' :: cs6 =>
                              match skipWs cs6 with
                              | '"' :: _ =>
                                  match parseVal fuel ('\x7b' :: cs6) with
                                  | some (.obj fields, rest) =>
                                      some (.obj ((key, v) :: fields), rest)
                                  | _ => none
                              | _ => none
                          | '\x7d' :: rest => some (.obj [(key, v)], rest)
                          | _ => none
                  | _ => none
          | _ => none
      | '[' :: cs =>
          match skipWs cs with
          | ']' :: rest => some (.arr [], rest)
          | _ =>
              match parseVal fuel cs with
              | none => none
              | some (v, cs2) =>
                  match skipWs cs2 with
                  | ',' :: cs3 =>
                      match skipWs cs3 with
                      | ']' :: _ => none
                      | _ =>
                          match parseVal fuel ('[' :: cs3) with
                          | some (.arr elems, rest) => some (.arr (v :: elems), rest)
                          | _ => none
                  | ']' :: rest => some (.arr [v], rest)
                  | _ => none
      | '"' :: cs =>
          match parseStringBody cs with
          | some (s, rest) => some (.str s, rest)
          | none => none
      | 't' :: 'r' :: 'u' :: 'e' :: rest => some (.bool true, rest)
      | 'f' :: 'a' :: 'l' :: 's' :: 'e' :: rest => some (.bool false, rest)
      | 'n' :: 'u' :: 'l' :: 'l' :: rest => some (.null, rest)
      | '-' :: cs =>
          match takeDigits cs with
          | ([], _) => none
          | (ds, rest) => some (.num (-(digitsVal ds : Int)), rest)
      | c :: cs =>
          if c.isDigit then
            some (.num (digitsVal (c :: (takeDigits cs).1)), (takeDigits cs).2)
          else none
      | [] => none

/-- Python `json.loads`: parse a complete JSON document, requiring only
trailing whitespace after the value; `none` models a raised
`ValueError`. -/
def json_loads (s : String) : Option Json :=
  match parseVal (s.length + 1) s.data with
  | some (j, rest) => if (skipWs rest).isEmpty then some j else none
  | none => none

/-- Python exception kinds that the classification logic can raise or
catch around `json.loads(resp.text)["error"]`. -/
inductive PyError where
  | valueError
  | keyError
  | typeError
deriving DecidableEq

/-- Python subscript `j["error"]` on a decoded JSON value: a field of a
JSON object (`KeyError` when absent), a `TypeError` on any non-object. -/
def jsonGetItem : Json → String → Except PyError Json
  | .obj fields, key =>
      match fields.find? (fun p => p.1 = key) with
      | some p => .ok p.2
      | none => .error .keyError
  | _, _ => .error .typeError

/-- Modelled from the spec: the `ensembl_config` module is not under
`src/`; the spec fixes the default base URL of the API client. -/
def ensembl_default_url : String := "http://rest.ensembl.org"

/-- Modelled from the spec: the `ensembl_config` module is not under
`src/`; the spec fixes the alternate genomes default base URL of the
Genome client. -/
def ensembl_genomes_url : String := "http://rest.ensemblgenomes.org"

/-- Modelled from the spec: the `ensembl_config` module is not under
`src/`; per the spec the session defaults carry a fixed `User-Agent`
header, held by this one-entry mapping. -/
def ensembl_user_agent : Dict := [("User-Agent", "pyEnsemblRest v0.2.3")]

/-- Modelled from the spec: the `ensembl_config` module is not under
`src/`; per the spec the default `Content-Type` header is a one-entry
mapping. -/
def ensembl_content_type : Dict := [("Content-Type", "application/json")]

/-- Modelled from the spec: the `ensembl_config` module is not under
`src/`; the static HTTP status-code table maps an integer status to a
`(short name, human message)` pair, `none` outside its domain (a lookup
outside the domain raises `KeyError` in Python). -/
def ensembl_http_status_codes (code : Nat) : Option (String × String) :=
  if code = 200 then some ("OK", "Request was a success.")
  else if code = 400 then some ("Bad Request", "Occurs during exceptional circumstances such as the service is unable to find an ID.")
  else if code = 404 then some ("Not Found", "Indicates a badly formatted request.")
  else if code = 415 then some ("Unsupported Media Type", "The server is refusing to service the request because the request payload is in an unsupported format.")
  else if code = 429 then some ("Too Many Requests", "You have been rate-limited; wait and retry.")
  else if code = 500 then some ("Internal Server Error", "This error is not documented.")
  else if code = 503 then some ("Service Unavailable", "The service is temporarily down.")
  else none

/-- One entry of `ensembl_api_table`: HTTP method, URL template with
placeholder tokens, and declared content type. -/
structure Endpoint where
  method : String
  url : String
  content_type : String

/-- An HTTP response as the dispatch logic observes it: numeric status
code and text body. -/
structure Response where
  status_code : Nat
  text : String

/-- Session state of an `EnsemblRest` instance after `__init__`:
base URL, merged session headers, proxies, and the rate-limit fields
`reqs_per_sec`, `req_count`, `last_req`.  `caller_headers_after` is the
post-construction state of the headers dict object the caller passed in
(Python's `update` mutates that object in place), `none` when the caller
passed no headers. -/
structure SessionState where
  base_url : String
  headers : Dict
  proxies : Dict
  reqs_per_sec : Nat
  req_count : Nat
  last_req : ℚ
  caller_headers_after : Option Dict

/-- Constructor arguments of `EnsemblRest(**kwargs)` that the
initialiser inspects. -/
structure InitArgs where
  base_url : Option String
  headers : Option Dict
  proxies : Option Dict

/-- Header merging of `EnsemblRest.__init__` (lines 64-69): defaults when
no headers are given; otherwise `headers.update(ensembl_user_agent)` when
`User-Agent` is absent, else `headers.update(ensembl_content_type)` when
`Content-Type` is absent, else the headers unchanged. -/
def mergedHeaders : Option Dict → Dict
  | none => ensembl_user_agent
  | some hs =>
      if dictHasKey hs "User-Agent" = false then dictUpdate hs ensembl_user_agent
      else if dictHasKey hs "Content-Type" = false then dictUpdate hs ensembl_content_type
      else hs

/-- `EnsemblRest.__init__`: merge defaults into the client arguments,
initialise the rate-limit fields to limit 15, count 0, last reset 0, and
update the session headers (which start as the HTTP library's default
session headers `requestsDefault`) with the merged headers. -/
def EnsemblRest.init (requestsDefault : Dict) (args : InitArgs) : SessionState :=
  { base_url := args.base_url.getD ensembl_default_url
    headers := dictUpdate requestsDefault (mergedHeaders args.headers)
    proxies := args.proxies.getD []
    reqs_per_sec := 15
    req_count := 0
    last_req := 0
    caller_headers_after := args.headers.map (fun _ => mergedHeaders args.headers) }

/-- `EnsemblGenomeRest.__init__`: force `base_url` to the keyword
argument, whose default is the genomes URL, then run the base-class
initialiser unchanged. -/
def EnsemblGenomeRest.init (requestsDefault : Dict) (args : InitArgs) : SessionState :=
  EnsemblRest.init requestsDefault
    { args with base_url := some (args.base_url.getD ensembl_genomes_url) }

/-- Typed failure of a dispatch call: the pre-send missing-parameter
check (carrying the offending parameter and the mandatory-parameter list
that `call_api_func` reports), the unimplemented-method error, the two
typed API errors raised from status codes, and Python exceptions that
escape unhandled. -/
inductive DispatchError where
  | missingParam (param : String) (mandatory : List String)
  | notImplemented (method : String)
  | restError (message : Json) (error_code : Nat)
  | rateLimitError (message : Json) (error_code : Nat)
  | unhandled (e : PyError)

/-- Successful dispatch payload: a decoded JSON structure for
`application/json` endpoints, the raw text body otherwise. -/
inductive Payload where
  | json (j : Json)
  | text (s : String)

/-- The request a dispatch call hands to the HTTP session: resolved URL,
method, the per-request `Content-Type` header, and the remaining keyword
arguments (sent as query parameters for GET, as the JSON-encoded body
for POST). -/
structure SentRequest where
  url : String
  method : String
  content_type_header : String
  params : Dict

/-- Everything observable about one dispatch call: its result, the
session state after the call, how long the rate limiter slept, and the
request sent over the network (`none` when the call failed before any
network I/O). -/
structure DispatchOutcome where
  result : Except DispatchError Payload
  session : SessionState
  sleep : ℚ
  sent : Option SentRequest

/-- Rate-limit gate of `call_api_func` (lines 127-132): once the count
reaches the limit, sleep out the remainder of the second when less than
one second has passed since the last reset, then clear the counter and
stamp the current (post-sleep) time.  Returns the new state and the
sleep duration. -/
def rateLimitStep (s : SessionState) (now : ℚ) : SessionState × ℚ :=
  if s.reqs_per_sec ≤ s.req_count then
    if now - s.last_req < 1 then
      ({ s with req_count := 0, last_req := now + (1 - (now - s.last_req)) },
       1 - (now - s.last_req))
    else
      ({ s with req_count := 0, last_req := now }, 0)
  else (s, 0)

/-- Post-send counter increment (`self.req_count += 1`, line 148). -/
def incrCount (s : SessionState) : SessionState :=
  { s with req_count := s.req_count + 1 }

/-- The delete loop of lines 123-124: `del kwargs[param]` for each
mandatory parameter in match order; deleting an absent key raises
`KeyError`. -/
def delParams : List String → Dict → Except PyError Dict
  | [], kwargs => .ok kwargs
  | p :: ps, kwargs =>
      if dictHasKey kwargs p then delParams ps (dictDel kwargs p)
      else .error .keyError

/-- URL resolution of line 117: the placeholder substitution applied to
the concatenation of the session base URL and the endpoint template,
each match replaced by the `"%s"` form of `kwargs.get(name)`. -/
def resolveUrl (base url : String) (kwargs : Dict) : String :=
  String.mk (re_sub (fun k => pyStrOpt (dictGet kwargs k)) (base ++ url).data)

/-- Response classification of lines 153-184.  Status over 304: the
message is the `error` field of the JSON body for status 400 (the
`KeyError` of a missing field is caught and replaced by the static table
message; a `ValueError` of an unparsable body and the `TypeError` of a
non-object body escape), the static table message for every other
status; status 429 selects the rate-limit error subtype.  Status at most
304: the parsed JSON body for `application/json` endpoints, the raw text
otherwise. -/
def classify (func : Endpoint) (resp : Response) : Except DispatchError Payload :=
  if 304 < resp.status_code then
    match
      (if resp.status_code = 400 then
        match json_loads resp.text with
        | none => Except.error PyError.valueError
        | some j =>
            match jsonGetItem j "error" with
            | .ok v => .ok v
            | .error .keyError =>
                match ensembl_http_status_codes resp.status_code with
                | some pair => .ok (.str pair.2)
                | none => .error .keyError
            | .error e => .error e
      else
        match ensembl_http_status_codes resp.status_code with
        | some pair => Except.ok (Json.str pair.2)
        | none => Except.error PyError.keyError)
    with
    | .error e => .error (.unhandled e)
    | .ok message =>
        if resp.status_code = 429 then
          .error (.rateLimitError message resp.status_code)
        else
          .error (.restError message resp.status_code)
  else
    if func.content_type = "application/json" then
      match json_loads resp.text with
      | none => .error (.unhandled .valueError)
      | some j => .ok (.json j)
    else .ok (.text resp.text)

/-- `EnsemblRest.call_api_func` on one endpoint descriptor: extract the
mandatory parameters from the template, fail on the first missing one
(before any network I/O), resolve the URL, delete the consumed keys,
run the rate-limit gate, send for GET or POST (the response being the
oracle `resp`), increment the request counter, and classify the
response.  A method other than GET and POST raises after the rate-limit
gate without sending. -/
def call_api_func (s : SessionState) (func : Endpoint) (kwargs : Dict) (now : ℚ)
    (resp : Response) : DispatchOutcome :=
  match (re_findall func.url.data).find? (fun p => !(dictHasKey kwargs p)) with
  | some p =>
      { result := .error (.missingParam p (re_findall func.url.data))
        session := s, sleep := 0, sent := none }
  | none =>
      match delParams (re_findall func.url.data) kwargs with
      | .error e =>
          { result := .error (.unhandled e), session := s, sleep := 0, sent := none }
      | .ok kwargs2 =>
          if func.method = "GET" ∨ func.method = "POST" then
            { result := classify func resp
              session := incrCount (rateLimitStep s now).1
              sleep := (rateLimitStep s now).2
              sent := some
                { url := resolveUrl s.base_url func.url kwargs
                  method := func.method
                  content_type_header := func.content_type
                  params := kwargs2 } }
          else
            { result := .error (.notImplemented func.method)
              session := (rateLimitStep s now).1
              sleep := (rateLimitStep s now).2
              sent := none }

/-- A typical spacing sequence of call times: one call every two
seconds. -/
def twoSecondsApart (n : Nat) : ℚ := (2 * n : Nat)

/-- The session states of a run of dispatch calls against a fixed
endpoint and response oracle, the call at step `n` issued at time
`t n`. -/
def dispatchSeq (s0 : SessionState) (func : Endpoint) (resp : Response)
    (t : Nat → ℚ) : Nat → SessionState
  | 0 => s0
  | n + 1 => (call_api_func (dispatchSeq s0 func resp t n) func [] (t n) resp).session

/-- How long the rate limiter sleeps at step `n` of such a run. -/
def seqSleep (s0 : SessionState) (func : Endpoint) (resp : Response)
    (t : Nat → ℚ) (n : Nat) : ℚ :=
  (call_api_func (dispatchSeq s0 func resp t n) func [] (t n) resp).sleep

/-- A fresh default-constructed client session, used as a concrete
instance by several witnesses. -/
def exampleSession : SessionState :=
  EnsemblRest.init [] { base_url := none, headers := none, proxies := none }

/-- A session whose request counter has reached the limit, with the last
reset stamped at time zero. -/
def saturatedSession : SessionState :=
  { exampleSession with req_count := 15, last_req := 0 }

/-- Concrete GET endpoint with one placeholder and JSON content type. -/
def lookupEndpoint : Endpoint :=
  { method := "GET", url := "/lookup/\x7b\x7bid\x7d\x7d", content_type := "application/json" }

/-- Concrete GET endpoint with no placeholder and JSON content type. -/
def pingJsonEndpoint : Endpoint :=
  { method := "GET", url := "/ping", content_type := "application/json" }

/-- Concrete GET endpoint with no placeholder and a plain-text content
type. -/
def pingTextEndpoint : Endpoint :=
  { method := "GET", url := "/ping", content_type := "text/plain" }

theorem takeIdent_length (cs : List Char) : (takeIdent cs).2.length ≤ cs.length := by
  induction cs with
  | nil => simp [takeIdent]
  | cons c cs ih =>
      simp only [takeIdent]
      split
      · exact Nat.le_succ_of_le ih
      · simp

theorem matchPlaceholder_length {l : List Char} {name : String} {rest : List Char}
    (h : matchPlaceholder l = some (name, rest)) : 4 + rest.length ≤ l.length := by
  match l with
  | [] => simp [matchPlaceholder] at h
  | [c] => simp [matchPlaceholder] at h
  | c1 :: c2 :: cs =>
      simp only [matchPlaceholder] at h
      split at h
      · split at h
        · split at h
          · exact absurd h (by simp)
          · split at h
            · rename_i d1 d2 rest0 heq
              split at h
              · split at h
                · have hlen : (takeIdent cs).2.length ≤ cs.length := takeIdent_length cs
                  rw [heq] at hlen
                  simp only [List.length_cons] at hlen
                  obtain ⟨-, hr⟩ := Prod.mk.injEq .. ▸ (Option.some.injEq .. ▸ h)
                  subst hr
                  simp only [List.length_cons]
                  omega
                · exact absurd h (by simp)
              · exact absurd h (by simp)
            · exact absurd h (by simp)
        · exact absurd h (by simp)
      · exact absurd h (by simp)

theorem matchPlaceholder_ne {c : Char} (cs : List Char) (h : ¬ c = '\x7b') :
    matchPlaceholder (c :: cs) = none := by
  cases cs with
  | nil => rfl
  | cons d ds => simp [matchPlaceholder, h]

theorem scanF_nil (fuel : Nat) : scanF fuel [] = [] := by
  cases fuel <;> rfl

theorem scanF_irrel : ∀ (f1 : Nat) (f2 : Nat) (l : List Char),
    l.length ≤ f1 → l.length ≤ f2 → scanF f1 l = scanF f2 l := by
  intro f1
  induction f1 with
  | zero =>
      intro f2 l h1 _
      have : l = [] := List.length_eq_zero.mp (Nat.le_zero.mp h1)
      subst this
      rw [scanF_nil, scanF_nil]
  | succ f ih =>
      intro f2 l h1 h2
      match l with
      | [] => rw [scanF_nil, scanF_nil]
      | c :: cs =>
          match f2 with
          | 0 => simp at h2
          | g + 1 =>
              simp only [scanF]
              cases hm : matchPlaceholder (c :: cs) with
              | some nr =>
                  have hlen := @matchPlaceholder_length (c :: cs) nr.1 nr.2 (by rw [hm])
                  simp only [List.length_cons] at hlen h1 h2
                  show Piece.hole nr.1 :: scanF f nr.2 = Piece.hole nr.1 :: scanF g nr.2
                  rw [ih g nr.2 (by omega) (by omega)]
              | none =>
                  simp only [List.length_cons] at h1 h2
                  show Piece.lit c :: scanF f cs = Piece.lit c :: scanF g cs
                  rw [ih g cs (by omega) (by omega)]

theorem scan_cons_ne {c : Char} (cs : List Char) (h : ¬ c = '\x7b') :
    scan (c :: cs) = Piece.lit c :: scan cs := by
  show scanF (c :: cs).length (c :: cs) = _
  simp only [List.length_cons, scanF, matchPlaceholder_ne cs h]
  rfl

theorem scan_append {base : List Char} (t : List Char)
    (h : ∀ c ∈ base, ¬ c = '\x7b') :
    scan (base ++ t) = base.map Piece.lit ++ scan t := by
  induction base with
  | nil => simp
  | cons c cs ih =>
      have hc : ¬ c = '\x7b' := h c (List.mem_cons_self c cs)
      rw [List.cons_append, scan_cons_ne (cs ++ t) hc,
        ih (fun d hd => h d (List.mem_cons_of_mem c hd))]
      simp

theorem foldr_render_map_lit (f : String → String) (base : List Char)
    (acc : List Char) :
    List.foldr (fun p a => renderPiece f p ++ a) acc (base.map Piece.lit) =
      base ++ acc := by
  induction base with
  | nil => simp
  | cons c cs ih =>
      rw [List.map_cons, List.foldr_cons, ih]
      rfl

theorem re_sub_append {base : List Char} (f : String → String) (t : List Char)
    (h : ∀ c ∈ base, ¬ c = '\x7b') :
    re_sub f (base ++ t) = base ++ re_sub f t := by
  unfold re_sub
  rw [scan_append t h, List.foldr_append, foldr_render_map_lit]

theorem String_data_append (a b : String) : (a ++ b).data = a.data ++ b.data := rfl

theorem String_mk_data (s : String) : String.mk s.data = s := rfl

theorem resolveUrl_eq {base : String} (url : String) (kwargs : Dict)
    (h : ∀ c ∈ base.data, ¬ c = '\x7b') :
    resolveUrl base url kwargs =
      base ++ String.mk (re_sub (fun k => pyStrOpt (dictGet kwargs k)) url.data) := by
  unfold resolveUrl
  rw [String_data_append, re_sub_append _ _ h]
  rfl

theorem dictGet_dictSet_self (d : Dict) (k v : String) :
    dictGet (dictSet d k v) k = some v := by
  induction d with
  | nil => simp [dictSet, dictGet]
  | cons p d ih =>
      obtain ⟨k0, v0⟩ := p
      by_cases hk : k0 = k
      · subst hk
        simp [dictSet, dictGet]
      · have e1 : dictSet ((k0, v0) :: d) k v = (k0, v0) :: dictSet d k v := by
          simp [dictSet, hk]
        rw [e1]
        show (if k0 = k then some v0 else dictGet (dictSet d k v) k) = some v
        rw [if_neg hk, ih]

theorem dictGet_dictSet_ne (d : Dict) (k v key : String) (h : ¬ k = key) :
    dictGet (dictSet d k v) key = dictGet d key := by
  induction d with
  | nil => simp [dictSet, dictGet, h]
  | cons p d ih =>
      obtain ⟨k0, v0⟩ := p
      by_cases hk : k0 = k
      · have e1 : dictSet ((k0, v0) :: d) k v = (k, v) :: d := by
          simp [dictSet, hk]
        rw [e1]
        show (if k = key then some v else dictGet d key) =
          (if k0 = key then some v0 else dictGet d key)
        rw [if_neg h, if_neg (fun he => h (hk.symm.trans he))]
      · have e1 : dictSet ((k0, v0) :: d) k v = (k0, v0) :: dictSet d k v := by
          simp [dictSet, hk]
        rw [e1]
        show (if k0 = key then some v0 else dictGet (dictSet d k v) key) =
          (if k0 = key then some v0 else dictGet d key)
        rw [ih]

theorem dictGet_dictUpdate_not_mem (d e : Dict) (key : String)
    (h : ∀ p ∈ e, ¬ p.1 = key) :
    dictGet (dictUpdate d e) key = dictGet d key := by
  induction e generalizing d with
  | nil => rfl
  | cons p e ih =>
      obtain ⟨k0, v0⟩ := p
      show dictGet (dictUpdate (dictSet d k0 v0) e) key = dictGet d key
      rw [ih (dictSet d k0 v0) (fun q hq => h q (List.mem_cons_of_mem _ hq)),
        dictGet_dictSet_ne d k0 v0 key (h (k0, v0) (List.mem_cons_self _ _))]

theorem dictGet_dictUpdate_of_get (d e : Dict) (key v : String)
    (hnd : (e.map Prod.fst).Nodup) (h : dictGet e key = some v) :
    dictGet (dictUpdate d e) key = some v := by
  induction e generalizing d with
  | nil => simp [dictGet] at h
  | cons p e ih =>
      obtain ⟨k0, v0⟩ := p
      simp only [List.map_cons, List.nodup_cons, List.mem_map] at hnd
      obtain ⟨hk0, hnd'⟩ := hnd
      show dictGet (dictUpdate (dictSet d k0 v0) e) key = some v
      by_cases hk : k0 = key
      · subst hk
        have hv : v0 = v := by
          have h' : dictGet ((k0, v0) :: e) k0 = some v := h
          simpa [dictGet] using h'
        subst hv
        rw [dictGet_dictUpdate_not_mem _ _ _
          (fun q hq hq1 => hk0 ⟨q, hq, hq1⟩)]
        exact dictGet_dictSet_self d k0 v0
      · have h' : dictGet e key = some v := by
          have h2 : dictGet ((k0, v0) :: e) key = some v := h
          simpa [dictGet, hk] using h2
        exact ih (dictSet d k0 v0) hnd' h'

theorem dictGet_dictDel (d : Dict) (k key : String) :
    dictGet (dictDel d k) key = if key = k then none else dictGet d key := by
  induction d with
  | nil => simp [dictDel, dictGet]
  | cons p d ih =>
      obtain ⟨k0, v0⟩ := p
      by_cases h0 : k0 = k
      · subst h0
        have e1 : dictDel ((k0, v0) :: d) k0 = dictDel d k0 := by simp [dictDel]
        rw [e1, ih]
        by_cases hk : key = k0
        · simp [hk]
        · have h1 : ¬ k0 = key := fun he => hk he.symm
          simp only [if_neg hk]
          show dictGet d key = (if k0 = key then some v0 else dictGet d key)
          rw [if_neg h1]
      · have e1 : dictDel ((k0, v0) :: d) k = (k0, v0) :: dictDel d k := by
          simp [dictDel, h0]
        rw [e1]
        show (if k0 = key then some v0 else dictGet (dictDel d k) key) = _
        rw [ih]
        by_cases hk : key = k
        · subst hk
          have h1 : ¬ k0 = key := h0
          simp [h1]
        · simp only [if_neg hk]
          rfl

theorem delParams_preserves_none {ms : List String} {kw kw2 : Dict} {p : String}
    (h : delParams ms kw = .ok kw2) (hp : dictGet kw p = none) :
    dictGet kw2 p = none := by
  induction ms generalizing kw with
  | nil =>
      simp only [delParams] at h
      cases h
      exact hp
  | cons q qs ih =>
      simp only [delParams] at h
      split at h
      · refine ih h ?_
        rw [dictGet_dictDel]
        split
        · rfl
        · exact hp
      · exact absurd h (by simp)

theorem delParams_ok_get_none {ms : List String} {kwargs kw2 : Dict}
    (h : delParams ms kwargs = .ok kw2) :
    ∀ p ∈ ms, dictGet kw2 p = none := by
  induction ms generalizing kwargs with
  | nil => simp
  | cons m ms ih =>
      simp only [delParams] at h
      split at h
      · intro p hp
        rcases List.mem_cons.mp hp with rfl | hpm
        · exact delParams_preserves_none h (by rw [dictGet_dictDel]; simp)
        · exact ih h p hpm
      · exact absurd h (by simp)

theorem delParams_ok_of_nodup {ms : List String} {kwargs : Dict}
    (hnd : ms.Nodup) (h : ∀ p ∈ ms, dictHasKey kwargs p = true) :
    ∃ kw2, delParams ms kwargs = .ok kw2 := by
  induction ms generalizing kwargs with
  | nil => exact ⟨kwargs, rfl⟩
  | cons m ms ih =>
      simp only [List.nodup_cons] at hnd
      obtain ⟨hm, hnd'⟩ := hnd
      have hkm : dictHasKey kwargs m = true := h m (List.mem_cons_self _ _)
      simp only [delParams, hkm, if_pos]
      refine ih hnd' ?_
      intro p hp
      have hne : ¬ p = m := fun he => hm (he ▸ hp)
      have := h p (List.mem_cons_of_mem _ hp)
      unfold dictHasKey at this ⊢
      rw [dictGet_dictDel]
      simpa [hne] using this


theorem call_api_func_send_eq (s : SessionState) (func : Endpoint) (kwargs : Dict)
    (now : ℚ) (resp : Response) (kw2 : Dict)
    (hm : (re_findall func.url.data).find? (fun p => !(dictHasKey kwargs p)) = none)
    (hd : delParams (re_findall func.url.data) kwargs = .ok kw2)
    (hme : func.method = "GET" ∨ func.method = "POST") :
    call_api_func s func kwargs now resp =
      { result := classify func resp
        session := incrCount (rateLimitStep s now).1
        sleep := (rateLimitStep s now).2
        sent := some
          { url := resolveUrl s.base_url func.url kwargs
            method := func.method
            content_type_header := func.content_type
            params := kw2 } } := by
  unfold call_api_func
  rw [hm, hd]
  exact if_pos hme

/-- C1: a dispatch call in which at least one placeholder token of the
entry's URL template has no matching keyword argument fails before any
network I/O (`sent = none`), and the reported failure carries a missing
parameter together with the full mandatory-parameter list, a list that
in particular contains every missing token. -/
theorem C1_missing_param_fails_before_network
    (s : SessionState) (func : Endpoint) (kwargs : Dict) (now : ℚ) (resp : Response)
    (h : ∃ p ∈ re_findall func.url.data, dictHasKey kwargs p = false) :
    ∃ p ms,
      (call_api_func s func kwargs now resp).result =
        .error (.missingParam p ms) ∧
      dictHasKey kwargs p = false ∧ p ∈ ms ∧
      (∀ q ∈ re_findall func.url.data, dictHasKey kwargs q = false → q ∈ ms) ∧
      (call_api_func s func kwargs now resp).sent = none := by
  obtain ⟨p0, hp0, hk0⟩ := h
  have hsome : ((re_findall func.url.data).find?
      (fun p => !(dictHasKey kwargs p))).isSome = true := by
    rw [List.find?_isSome]
    exact ⟨p0, hp0, by simp [hk0]⟩
  obtain ⟨q, hq⟩ := Option.isSome_iff_exists.mp hsome
  have hqmem : q ∈ re_findall func.url.data := List.mem_of_find?_eq_some hq
  have hqpred : dictHasKey kwargs q = false := by
    have := List.find?_some hq
    simpa using this
  refine ⟨q, re_findall func.url.data, ?_, hqpred, hqmem, fun r hr _ => hr, ?_⟩
  · unfold call_api_func
    rw [hq]
  · unfold call_api_func
    rw [hq]

/-- C3: when every placeholder token is supplied (and the template's
tokens are distinct, as in the registry), the dispatch call sends a
request whose URL is the exact placeholder substitution of the template
concatenated onto the session base URL, and whose parameter set no
longer contains any placeholder token. -/
theorem C3_url_resolution
    (s : SessionState) (func : Endpoint) (kwargs : Dict) (now : ℚ) (resp : Response)
    (hbase : ∀ c ∈ s.base_url.data, ¬ c = '\x7b')
    (hall : ∀ p ∈ re_findall func.url.data, dictHasKey kwargs p = true)
    (hnd : (re_findall func.url.data).Nodup)
    (hme : func.method = "GET" ∨ func.method = "POST") :
    ∃ sent, (call_api_func s func kwargs now resp).sent = some sent ∧
      sent.url = s.base_url ++
        String.mk (re_sub (fun k => pyStrOpt (dictGet kwargs k)) func.url.data) ∧
      ∀ p ∈ re_findall func.url.data, dictGet sent.params p = none := by
  have hm : (re_findall func.url.data).find? (fun p => !(dictHasKey kwargs p)) = none := by
    rw [List.find?_eq_none]
    intro x hx
    simp [hall x hx]
  obtain ⟨kw2, hd⟩ := delParams_ok_of_nodup hnd hall
  rw [call_api_func_send_eq s func kwargs now resp kw2 hm hd hme]
  refine ⟨_, rfl, ?_, ?_⟩
  · exact resolveUrl_eq func.url kwargs hbase
  · exact delParams_ok_get_none hd

/-- C5: a dispatch call that reaches the request-execution step with
method GET or POST increments the request count exactly once past the
rate-gate value, for every response whatsoever (success or error
status alike, the classification of the response playing no role). -/
theorem C5_counter_increment
    (s : SessionState) (func : Endpoint) (kwargs : Dict) (now : ℚ) (resp : Response)
    (kw2 : Dict)
    (hm : (re_findall func.url.data).find? (fun p => !(dictHasKey kwargs p)) = none)
    (hd : delParams (re_findall func.url.data) kwargs = .ok kw2)
    (hme : func.method = "GET" ∨ func.method = "POST") :
    (call_api_func s func kwargs now resp).session.req_count =
      (rateLimitStep s now).1.req_count + 1 ∧
    (call_api_func s func kwargs now resp).sent.isSome = true := by
  rw [call_api_func_send_eq s func kwargs now resp kw2 hm hd hme]
  exact ⟨rfl, rfl⟩

theorem C1_missing_param_fails_before_network_witness :
    ∃ p ms,
      (call_api_func exampleSession lookupEndpoint [] 0
        { status_code := 200, text := "x" }).result =
        .error (.missingParam p ms) ∧
      dictHasKey [] p = false ∧ p ∈ ms ∧
      (∀ q ∈ re_findall lookupEndpoint.url.data, dictHasKey [] q = false → q ∈ ms) ∧
      (call_api_func exampleSession lookupEndpoint [] 0
        { status_code := 200, text := "x" }).sent = none :=
  C1_missing_param_fails_before_network exampleSession lookupEndpoint [] 0
    { status_code := 200, text := "x" } ⟨"id", by decide, by decide⟩

theorem C3_url_resolution_witness :
    (∃ sent,
      (call_api_func exampleSession lookupEndpoint [("id", "ENSG001")] 0
        { status_code := 200, text := "\x7b\"a\":1\x7d" }).sent = some sent ∧
      sent.url = exampleSession.base_url ++
        String.mk (re_sub (fun k => pyStrOpt (dictGet [("id", "ENSG001")] k))
          lookupEndpoint.url.data) ∧
      ∀ p ∈ re_findall lookupEndpoint.url.data, dictGet sent.params p = none) ∧
    exampleSession.base_url ++
        String.mk (re_sub (fun k => pyStrOpt (dictGet [("id", "ENSG001")] k))
          lookupEndpoint.url.data) = "http://rest.ensembl.org/lookup/ENSG001" :=
  ⟨C3_url_resolution exampleSession lookupEndpoint [("id", "ENSG001")] 0
      { status_code := 200, text := "\x7b\"a\":1\x7d" }
      (by decide) (by decide) (by decide) (Or.inl rfl),
   rfl⟩

theorem C5_counter_increment_witness :
    (call_api_func exampleSession pingJsonEndpoint [] 0
      { status_code := 503, text := "down" }).session.req_count =
      (rateLimitStep exampleSession 0).1.req_count + 1 ∧
    (call_api_func exampleSession pingJsonEndpoint [] 0
      { status_code := 503, text := "down" }).sent.isSome = true :=
  C5_counter_increment exampleSession pingJsonEndpoint [] 0
    { status_code := 503, text := "down" } [] rfl rfl (Or.inl rfl)

theorem mem_keys_dictSet (d : Dict) (k v key : String) :
    key ∈ (dictSet d k v).map Prod.fst ↔ key = k ∨ key ∈ d.map Prod.fst := by
  induction d with
  | nil => simp [dictSet]
  | cons p d ih =>
      obtain ⟨k0, v0⟩ := p
      by_cases h0 : k0 = k
      · have e1 : dictSet ((k0, v0) :: d) k v = (k, v) :: d := by simp [dictSet, h0]
        rw [e1]
        simp only [List.map_cons, List.mem_cons]
        constructor
        · rintro (he | hm)
          · exact Or.inl he
          · exact Or.inr (Or.inr hm)
        · rintro (he | he | hm)
          · exact Or.inl he
          · exact Or.inl (he.trans h0)
          · exact Or.inr hm
      · have e1 : dictSet ((k0, v0) :: d) k v = (k0, v0) :: dictSet d k v := by
          simp [dictSet, h0]
        rw [e1]
        simp only [List.map_cons, List.mem_cons, ih]
        tauto

theorem dictSet_keys_nodup (d : Dict) (k v : String)
    (hnd : (d.map Prod.fst).Nodup) : ((dictSet d k v).map Prod.fst).Nodup := by
  induction d with
  | nil => simp [dictSet]
  | cons p d ih =>
      obtain ⟨k0, v0⟩ := p
      simp only [List.map_cons, List.nodup_cons] at hnd
      obtain ⟨hk0, hnd'⟩ := hnd
      by_cases h0 : k0 = k
      · have e1 : dictSet ((k0, v0) :: d) k v = (k, v) :: d := by simp [dictSet, h0]
        rw [e1]
        simp only [List.map_cons, List.nodup_cons]
        exact ⟨h0 ▸ hk0, hnd'⟩
      · have e1 : dictSet ((k0, v0) :: d) k v = (k0, v0) :: dictSet d k v := by
          simp [dictSet, h0]
        rw [e1]
        simp only [List.map_cons, List.nodup_cons]
        refine ⟨?_, ih hnd'⟩
        rw [mem_keys_dictSet]
        rintro (he | hm)
        · exact h0 he
        · exact hk0 hm

theorem mergedHeaders_some (h : Dict) :
    mergedHeaders (some h) =
      if dictHasKey h "User-Agent" = false then dictUpdate h ensembl_user_agent
      else if dictHasKey h "Content-Type" = false then dictUpdate h ensembl_content_type
      else h := rfl

theorem dictGet_update_single_other (h : Dict) (dk dv k : String)
    (hne : ¬ dk = k) :
    dictGet (dictUpdate h [(dk, dv)]) k = dictGet h k :=
  dictGet_dictSet_ne h dk dv k hne

/-- C2: construction with a caller-supplied headers mapping keeps every
caller entry, with the caller's value, in the resulting session headers,
whatever the HTTP library's own default session headers are; in
particular caller-supplied `User-Agent` or `Content-Type` entries are
preserved, since the initialiser only ever merges a default set whose
single key is absent from the caller's mapping. -/
theorem C2_caller_headers_win
    (requestsDefault : Dict) (args : InitArgs) (h : Dict)
    (hh : args.headers = some h) (hnd : (h.map Prod.fst).Nodup)
    (k v : String) (hk : dictGet h k = some v) :
    dictGet (EnsemblRest.init requestsDefault args).headers k = some v := by
  have key_pres : ∀ (dk dv : String), dictHasKey h dk = false →
      dictGet (dictUpdate h [(dk, dv)]) k = some v := by
    intro dk dv hdk
    by_cases hkd : dk = k
    · exfalso
      rw [hkd] at hdk
      unfold dictHasKey at hdk
      rw [hk] at hdk
      simp at hdk
    · rw [dictGet_update_single_other h dk dv k hkd]
      exact hk
  have hmerged : dictGet (mergedHeaders (some h)) k = some v := by
    rw [mergedHeaders_some]
    by_cases h1 : dictHasKey h "User-Agent" = false
    · rw [if_pos h1]
      exact key_pres "User-Agent" "pyEnsemblRest v0.2.3" h1
    · rw [if_neg h1]
      by_cases h2 : dictHasKey h "Content-Type" = false
      · rw [if_pos h2]
        exact key_pres "Content-Type" "application/json" h2
      · rw [if_neg h2]
        exact hk
  have hmnd : ((mergedHeaders (some h)).map Prod.fst).Nodup := by
    rw [mergedHeaders_some]
    by_cases h1 : dictHasKey h "User-Agent" = false
    · rw [if_pos h1]
      exact dictSet_keys_nodup h "User-Agent" "pyEnsemblRest v0.2.3" hnd
    · rw [if_neg h1]
      by_cases h2 : dictHasKey h "Content-Type" = false
      · rw [if_pos h2]
        exact dictSet_keys_nodup h "Content-Type" "application/json" hnd
      · rw [if_neg h2]
        exact hnd
  show dictGet (dictUpdate requestsDefault (mergedHeaders args.headers)) k = some v
  rw [hh]
  exact dictGet_dictUpdate_of_get requestsDefault (mergedHeaders (some h)) k v
    hmnd hmerged

theorem C2_caller_headers_win_witness :
    dictGet (EnsemblRest.init [("Accept", "*/*")]
      { base_url := none, headers := some [("Content-Type", "text/xml")],
        proxies := none }).headers "Content-Type" = some "text/xml" :=
  C2_caller_headers_win [("Accept", "*/*")]
    { base_url := none, headers := some [("Content-Type", "text/xml")], proxies := none }
    [("Content-Type", "text/xml")] rfl (by decide) "Content-Type" "text/xml" rfl

/-- C10: when the caller's headers mapping lacks `User-Agent` (or has it
but lacks `Content-Type`), construction mutates the caller's own mapping
object in place via `update`: after construction the caller-visible dict
is the merged dict, which differs from the mapping as it was passed. -/
theorem C10_caller_headers_mutated
    (requestsDefault : Dict) (args : InitArgs) (h : Dict)
    (hh : args.headers = some h) :
    (dictHasKey h "User-Agent" = false →
      (EnsemblRest.init requestsDefault args).caller_headers_after =
        some (dictUpdate h ensembl_user_agent) ∧
      ¬ dictUpdate h ensembl_user_agent = h) ∧
    (dictHasKey h "User-Agent" = true → dictHasKey h "Content-Type" = false →
      (EnsemblRest.init requestsDefault args).caller_headers_after =
        some (dictUpdate h ensembl_content_type) ∧
      ¬ dictUpdate h ensembl_content_type = h) := by
  have hafter : (EnsemblRest.init requestsDefault args).caller_headers_after =
      some (mergedHeaders (some h)) := by
    show args.headers.map (fun _ => mergedHeaders args.headers) = _
    rw [hh]
    rfl
  constructor
  · intro h1
    constructor
    · rw [hafter, mergedHeaders_some, if_pos h1]
    · intro heq
      have hget : dictGet (dictUpdate h ensembl_user_agent) "User-Agent" =
          some "pyEnsemblRest v0.2.3" := dictGet_dictSet_self h _ _
      rw [heq] at hget
      unfold dictHasKey at h1
      rw [hget] at h1
      simp at h1
  · intro h1 h2
    constructor
    · rw [hafter, mergedHeaders_some, if_neg (by rw [h1]; simp), if_pos h2]
    · intro heq
      have hget : dictGet (dictUpdate h ensembl_content_type) "Content-Type" =
          some "application/json" := dictGet_dictSet_self h _ _
      rw [heq] at hget
      unfold dictHasKey at h2
      rw [hget] at h2
      simp at h2

theorem C10_caller_headers_mutated_witness :
    ((EnsemblRest.init []
        { base_url := none, headers := some [("Content-Type", "text/xml")],
          proxies := none }).caller_headers_after =
      some (dictUpdate [("Content-Type", "text/xml")] ensembl_user_agent) ∧
      ¬ dictUpdate [("Content-Type", "text/xml")] ensembl_user_agent =
        [("Content-Type", "text/xml")]) :=
  (C10_caller_headers_mutated []
    { base_url := none, headers := some [("Content-Type", "text/xml")], proxies := none }
    [("Content-Type", "text/xml")] rfl).1 (by decide)

/-- C8: the Genome client is the API client with one substituted
default: with an explicit base URL the two constructions coincide
exactly; without one the Genome client equals an API client constructed
with the genomes base URL; and dispatch on the constructed session is
the identical function in both cases. -/
theorem C8_genome_client_equivalence
    (requestsDefault : Dict) (args : InitArgs) :
    (∀ b, args.base_url = some b →
      EnsemblGenomeRest.init requestsDefault args =
        EnsemblRest.init requestsDefault args) ∧
    (args.base_url = none →
      EnsemblGenomeRest.init requestsDefault args =
        EnsemblRest.init requestsDefault
          { args with base_url := some ensembl_genomes_url }) ∧
    (∀ (func : Endpoint) (kwargs : Dict) (now : ℚ) (resp : Response),
      call_api_func (EnsemblGenomeRest.init requestsDefault args) func kwargs now resp =
        call_api_func
          (EnsemblRest.init requestsDefault
            { args with base_url := some (args.base_url.getD ensembl_genomes_url) })
          func kwargs now resp) := by
  obtain ⟨ab, ah, ap⟩ := args
  refine ⟨?_, ?_, ?_⟩
  · intro b hb
    have hb' : ab = some b := hb
    subst hb'
    rfl
  · intro hb
    have hb' : ab = none := hb
    subst hb'
    rfl
  · intro func kwargs now resp
    rfl

theorem C8_genome_client_equivalence_witness :
    EnsemblGenomeRest.init []
        { base_url := some "http://example.org", headers := none, proxies := none } =
      EnsemblRest.init []
        { base_url := some "http://example.org", headers := none, proxies := none } ∧
    EnsemblGenomeRest.init []
        { base_url := none, headers := none, proxies := none } =
      EnsemblRest.init []
        { base_url := some ensembl_genomes_url, headers := none, proxies := none } :=
  ⟨(C8_genome_client_equivalence []
      { base_url := some "http://example.org", headers := none, proxies := none }).1
      "http://example.org" rfl,
   (C8_genome_client_equivalence []
      { base_url := none, headers := none, proxies := none }).2.1 rfl⟩

/-- C6 (amended): a dispatch call whose response has HTTP status at most
304 returns successfully with the parsed JSON structure when the
endpoint's declared content type is `application/json` and the body
parses as JSON, and with the raw text body unchanged for any other
declared content type.  (As stated, the claim fails when a JSON
endpoint's body does not parse: see the counterexample.) -/
theorem C6_success_classification
    (s : SessionState) (func : Endpoint) (kwargs : Dict) (now : ℚ) (resp : Response)
    (kw2 : Dict)
    (hm : (re_findall func.url.data).find? (fun p => !(dictHasKey kwargs p)) = none)
    (hd : delParams (re_findall func.url.data) kwargs = .ok kw2)
    (hme : func.method = "GET" ∨ func.method = "POST")
    (hst : resp.status_code ≤ 304) :
    (func.content_type = "application/json" →
      ∀ j, json_loads resp.text = some j →
        (call_api_func s func kwargs now resp).result = .ok (.json j)) ∧
    (¬ func.content_type = "application/json" →
      (call_api_func s func kwargs now resp).result = .ok (.text resp.text)) := by
  rw [call_api_func_send_eq s func kwargs now resp kw2 hm hd hme]
  have hngt : ¬ 304 < resp.status_code := Nat.not_lt.mpr hst
  constructor
  · intro hct j hj
    show classify func resp = .ok (.json j)
    unfold classify
    rw [if_neg hngt, if_pos hct, hj]
  · intro hct
    show classify func resp = .ok (.text resp.text)
    unfold classify
    rw [if_neg hngt, if_neg hct]

theorem C6_success_classification_witness :
    (call_api_func exampleSession pingJsonEndpoint [] 0
      { status_code := 200, text := "\x7b\"a\":1\x7d" }).result =
      .ok (.json (.obj [("a", .num 1)])) ∧
    (call_api_func exampleSession pingTextEndpoint [] 0
      { status_code := 200, text := "hello" }).result = .ok (.text "hello") :=
  ⟨(C6_success_classification exampleSession pingJsonEndpoint [] 0
      { status_code := 200, text := "\x7b\"a\":1\x7d" } [] rfl rfl (Or.inl rfl)
      (by decide)).1 rfl (.obj [("a", .num 1)]) rfl,
   (C6_success_classification exampleSession pingTextEndpoint [] 0
      { status_code := 200, text := "hello" } [] rfl rfl (Or.inl rfl)
      (by decide)).2 (by decide)⟩

/-- C6 as stated is false: a response with status 200 (at most 304) on
an `application/json` endpoint whose body is not valid JSON does not
return successfully; the unhandled JSON-decoding error escapes
instead. -/
theorem C6_counterexample_invalid_json_success_status :
    (200 : Nat) ≤ 304 ∧
    pingJsonEndpoint.content_type = "application/json" ∧
    (call_api_func exampleSession pingJsonEndpoint [] 0
      { status_code := 200, text := "not json" }).result =
      .error (.unhandled .valueError) :=
  ⟨by decide, rfl, rfl⟩

/-- C7: a dispatch call whose response has HTTP status over 304 (a
status the static table covers) raises a typed error carrying the
message and the numeric status code: for status 400 the message is the
`error` field of the JSON-object body, falling back to the static table
message when that field is absent; for any other status the static
table message is used directly; status 429 selects the distinct
rate-limit error subtype and every other status over 304 the generic
API error type. -/
theorem C7_error_classification
    (s : SessionState) (func : Endpoint) (kwargs : Dict) (now : ℚ) (resp : Response)
    (kw2 : Dict) (pair : String × String)
    (hm : (re_findall func.url.data).find? (fun p => !(dictHasKey kwargs p)) = none)
    (hd : delParams (re_findall func.url.data) kwargs = .ok kw2)
    (hme : func.method = "GET" ∨ func.method = "POST")
    (hst : 304 < resp.status_code)
    (htab : ensembl_http_status_codes resp.status_code = some pair) :
    (¬ resp.status_code = 400 → ¬ resp.status_code = 429 →
      (call_api_func s func kwargs now resp).result =
        .error (.restError (.str pair.2) resp.status_code)) ∧
    (resp.status_code = 429 →
      (call_api_func s func kwargs now resp).result =
        .error (.rateLimitError (.str pair.2) resp.status_code)) ∧
    (resp.status_code = 400 →
      ∀ fields, json_loads resp.text = some (.obj fields) →
        (∀ v, jsonGetItem (.obj fields) "error" = .ok v →
          (call_api_func s func kwargs now resp).result =
            .error (.restError v resp.status_code)) ∧
        (jsonGetItem (.obj fields) "error" = .error .keyError →
          (call_api_func s func kwargs now resp).result =
            .error (.restError (.str pair.2) resp.status_code))) := by
  rw [call_api_func_send_eq s func kwargs now resp kw2 hm hd hme]
  refine ⟨?_, ?_, ?_⟩
  · intro h400 h429
    show classify func resp = _
    simp [classify, hst, h400, h429, htab]
  · intro h429
    have htab' : ensembl_http_status_codes 429 = some pair := by
      rw [h429] at htab
      exact htab
    show classify func resp = _
    simp [classify, h429, htab']
  · intro h400 fields hj
    have htab' : ensembl_http_status_codes 400 = some pair := by
      rw [h400] at htab
      exact htab
    constructor
    · intro v hv
      show classify func resp = _
      simp [classify, h400, hj, hv]
    · intro hv
      show classify func resp = _
      simp [classify, h400, hj, hv, htab']

theorem C7_error_classification_witness :
    (call_api_func exampleSession pingJsonEndpoint [] 0
      { status_code := 500, text := "" }).result =
      .error (.restError (.str "This error is not documented.") 500) ∧
    (call_api_func exampleSession pingJsonEndpoint [] 0
      { status_code := 429, text := "" }).result =
      .error (.rateLimitError (.str "You have been rate-limited; wait and retry.") 429) ∧
    (call_api_func exampleSession pingJsonEndpoint [] 0
      { status_code := 400, text := "\x7b\"error\":\"bad id\"\x7d" }).result =
      .error (.restError (.str "bad id") 400) ∧
    (call_api_func exampleSession pingJsonEndpoint [] 0
      { status_code := 400, text := "\x7b\"a\":1\x7d" }).result =
      .error (.restError
        (.str "Occurs during exceptional circumstances such as the service is unable to find an ID.") 400) :=
  ⟨(C7_error_classification exampleSession pingJsonEndpoint [] 0
      { status_code := 500, text := "" } []
      ("Internal Server Error", "This error is not documented.")
      rfl rfl (Or.inl rfl) (by decide) rfl).1 (by decide) (by decide),
   (C7_error_classification exampleSession pingJsonEndpoint [] 0
      { status_code := 429, text := "" } []
      ("Too Many Requests", "You have been rate-limited; wait and retry.")
      rfl rfl (Or.inl rfl) (by decide) rfl).2.1 rfl,
   ((C7_error_classification exampleSession pingJsonEndpoint [] 0
      { status_code := 400, text := "\x7b\"error\":\"bad id\"\x7d" } []
      ("Bad Request", "Occurs during exceptional circumstances such as the service is unable to find an ID.")
      rfl rfl (Or.inl rfl) (by decide) rfl).2.2 rfl
      [("error", .str "bad id")] rfl).1 (.str "bad id") rfl,
   ((C7_error_classification exampleSession pingJsonEndpoint [] 0
      { status_code := 400, text := "\x7b\"a\":1\x7d" } []
      ("Bad Request", "Occurs during exceptional circumstances such as the service is unable to find an ID.")
      rfl rfl (Or.inl rfl) (by decide) rfl).2.2 rfl
      [("a", .num 1)] rfl).2 rfl⟩

/-- C9: on a status-400 response whose body is not valid JSON, the raised
failure is the unhandled JSON-decoding `ValueError`, not the typed API
error; only a body that parses as a JSON object yet lacks the `error`
key (the caught `KeyError`) falls back to the static status-code table
message inside the typed API error. -/
theorem C9_status400_unparsable_body
    (s : SessionState) (func : Endpoint) (kwargs : Dict) (now : ℚ) (resp : Response)
    (kw2 : Dict)
    (hm : (re_findall func.url.data).find? (fun p => !(dictHasKey kwargs p)) = none)
    (hd : delParams (re_findall func.url.data) kwargs = .ok kw2)
    (hme : func.method = "GET" ∨ func.method = "POST")
    (h400 : resp.status_code = 400) :
    (json_loads resp.text = none →
      (call_api_func s func kwargs now resp).result =
        .error (.unhandled .valueError)) ∧
    (∀ fields, json_loads resp.text = some (.obj fields) →
      jsonGetItem (.obj fields) "error" = .error .keyError →
      ∃ pair, ensembl_http_status_codes 400 = some pair ∧
        (call_api_func s func kwargs now resp).result =
          .error (.restError (.str pair.2) 400)) := by
  rw [call_api_func_send_eq s func kwargs now resp kw2 hm hd hme]
  constructor
  · intro hj
    show classify func resp = _
    simp [classify, h400, hj]
  · intro fields hj hv
    refine ⟨("Bad Request",
      "Occurs during exceptional circumstances such as the service is unable to find an ID."),
      rfl, ?_⟩
    show classify func resp = _
    simp [classify, h400, hj, hv, ensembl_http_status_codes]

theorem C9_status400_unparsable_body_witness :
    (call_api_func exampleSession pingJsonEndpoint [] 0
      { status_code := 400, text := "Bad Request" }).result =
      .error (.unhandled .valueError) ∧
    ∃ pair, ensembl_http_status_codes 400 = some pair ∧
      (call_api_func exampleSession pingJsonEndpoint [] 0
        { status_code := 400, text := "\x7b\"a\":1\x7d" }).result =
        .error (.restError (.str pair.2) 400) :=
  ⟨(C9_status400_unparsable_body exampleSession pingJsonEndpoint [] 0
      { status_code := 400, text := "Bad Request" } [] rfl rfl (Or.inl rfl) rfl).1 rfl,
   (C9_status400_unparsable_body exampleSession pingJsonEndpoint [] 0
      { status_code := 400, text := "\x7b\"a\":1\x7d" } [] rfl rfl (Or.inl rfl) rfl).2
      [("a", .num 1)] rfl rfl⟩

theorem call_session_cases (s : SessionState) (func : Endpoint) (kwargs : Dict)
    (now : ℚ) (resp : Response) :
    ((call_api_func s func kwargs now resp).session = s ∧
      (call_api_func s func kwargs now resp).sleep = 0) ∨
    ((call_api_func s func kwargs now resp).sleep = (rateLimitStep s now).2 ∧
      ((call_api_func s func kwargs now resp).session = (rateLimitStep s now).1 ∨
        (call_api_func s func kwargs now resp).session =
          incrCount (rateLimitStep s now).1)) := by
  unfold call_api_func
  split
  · exact Or.inl ⟨rfl, rfl⟩
  · split
    · exact Or.inl ⟨rfl, rfl⟩
    · split
      · exact Or.inr ⟨rfl, Or.inr rfl⟩
      · exact Or.inr ⟨rfl, Or.inl rfl⟩

theorem rateLimitStep_not_reached (s : SessionState) (now : ℚ)
    (h : ¬ s.reqs_per_sec ≤ s.req_count) : rateLimitStep s now = (s, 0) := by
  unfold rateLimitStep
  rw [if_neg h]

theorem rateLimitStep_no_wait (s : SessionState) (now : ℚ)
    (hc : s.reqs_per_sec ≤ s.req_count) (hd : ¬ now - s.last_req < 1) :
    rateLimitStep s now = ({ s with req_count := 0, last_req := now }, 0) := by
  unfold rateLimitStep
  rw [if_pos hc, if_neg hd]

theorem call_step_bound (s : SessionState) (func : Endpoint) (kwargs : Dict)
    (now next : ℚ) (resp : Response)
    (hlim : 1 ≤ s.reqs_per_sec)
    (hinv : s.last_req + (s.req_count : ℚ) ≤ now)
    (hnext : now + 1 < next) :
    (call_api_func s func kwargs now resp).sleep = 0 ∧
    (call_api_func s func kwargs now resp).session.reqs_per_sec = s.reqs_per_sec ∧
    (call_api_func s func kwargs now resp).session.last_req +
      ((call_api_func s func kwargs now resp).session.req_count : ℚ) ≤ next := by
  rcases call_session_cases s func kwargs now resp with ⟨hs, hsl⟩ | ⟨hsl, hs⟩
  · rw [hs, hsl]
    exact ⟨rfl, rfl, by linarith⟩
  · by_cases hc : s.reqs_per_sec ≤ s.req_count
    · have hcount : (1 : ℚ) ≤ (s.req_count : ℚ) := by
        have : (1 : Nat) ≤ s.req_count := le_trans hlim hc
        exact_mod_cast this
      have hdelta : ¬ now - s.last_req < 1 := by
        push_neg
        linarith
      have hrl := rateLimitStep_no_wait s now hc hdelta
      rw [hrl] at hsl hs
      rcases hs with hs | hs
      · rw [hs, hsl]
        refine ⟨rfl, rfl, ?_⟩
        show now + ((0 : Nat) : ℚ) ≤ next
        push_cast
        linarith
      · rw [hs, hsl]
        refine ⟨rfl, rfl, ?_⟩
        show now + (((0 : Nat) + 1 : Nat) : ℚ) ≤ next
        push_cast
        linarith
    · have hrl := rateLimitStep_not_reached s now hc
      rw [hrl] at hsl hs
      rcases hs with hs | hs <;>
        rw [hs, hsl] <;>
        refine ⟨rfl, rfl, ?_⟩
      · linarith
      · show s.last_req + ((s.req_count + 1 : Nat) : ℚ) ≤ next
        push_cast
        linarith

theorem dispatchSeq_never_blocks (s0 : SessionState) (func : Endpoint)
    (resp : Response) (t : Nat → ℚ)
    (hlim : 1 ≤ s0.reqs_per_sec)
    (h0 : s0.last_req + (s0.req_count : ℚ) ≤ t 0)
    (hsp : ∀ n, t n + 1 < t (n + 1)) :
    ∀ n, (dispatchSeq s0 func resp t n).reqs_per_sec = s0.reqs_per_sec ∧
      (dispatchSeq s0 func resp t n).last_req +
        ((dispatchSeq s0 func resp t n).req_count : ℚ) ≤ t n ∧
      seqSleep s0 func resp t n = 0 := by
  intro n
  induction n with
  | zero =>
      refine ⟨rfl, h0, ?_⟩
      exact (call_step_bound s0 func [] (t 0) (t 1) resp hlim h0 (hsp 0)).1
  | succ n ih =>
      obtain ⟨ihl, ihb, _⟩ := ih
      have hstep := call_step_bound (dispatchSeq s0 func resp t n) func []
        (t n) (t (n + 1)) resp (ihl ▸ hlim) ihb (hsp n)
      refine ⟨?_, ?_, ?_⟩
      · show (call_api_func (dispatchSeq s0 func resp t n) func [] (t n) resp).session.reqs_per_sec = _
        rw [hstep.2.1, ihl]
      · exact hstep.2.2
      · exact (call_step_bound (dispatchSeq s0 func resp t (n + 1)) func []
          (t (n + 1)) (t (n + 2)) resp
          (by
            show (call_api_func (dispatchSeq s0 func resp t n) func [] (t n) resp).session.reqs_per_sec ≥ 1
            rw [hstep.2.1, ihl]
            exact hlim)
          hstep.2.2 (hsp (n + 1))).1

/-- C4: the rate-limit gate of a dispatch call.  Once the running
request count has reached the per-second limit: if less than one second
has elapsed since the last reset, the call blocks for exactly the
remainder of that second, then zeroes the counter and stamps the
current (post-sleep) time; if at least one second has elapsed, the
reset is immediate with no blocking.  A run of dispatch calls on a
fresh client, each spaced more than one second apart, never blocks. -/
theorem C4_rate_limit_behaviour
    (s : SessionState) (now : ℚ) (requestsDefault : Dict) (args : InitArgs)
    (func : Endpoint) (resp : Response) (t : Nat → ℚ)
    (hreach : s.reqs_per_sec ≤ s.req_count)
    (ht0 : 0 ≤ t 0) (hsp : ∀ n, t n + 1 < t (n + 1)) :
    (now - s.last_req < 1 →
      (rateLimitStep s now).2 = 1 - (now - s.last_req) ∧
      (rateLimitStep s now).1.req_count = 0 ∧
      (rateLimitStep s now).1.last_req = now + (rateLimitStep s now).2) ∧
    (¬ now - s.last_req < 1 →
      (rateLimitStep s now).2 = 0 ∧
      (rateLimitStep s now).1.req_count = 0 ∧
      (rateLimitStep s now).1.last_req = now) ∧
    (∀ n, seqSleep (EnsemblRest.init requestsDefault args) func resp t n = 0) := by
  refine ⟨?_, ?_, ?_⟩
  · intro hd
    unfold rateLimitStep
    rw [if_pos hreach, if_pos hd]
    exact ⟨rfl, rfl, rfl⟩
  · intro hd
    rw [rateLimitStep_no_wait s now hreach hd]
    exact ⟨rfl, rfl, rfl⟩
  · intro n
    refine (dispatchSeq_never_blocks (EnsemblRest.init requestsDefault args)
      func resp t ?_ ?_ hsp n).2.2
    · exact (by decide : (1 : Nat) ≤ 15)
    · show (0 : ℚ) + ((0 : Nat) : ℚ) ≤ t 0
      push_cast
      linarith

theorem C4_rate_limit_behaviour_witness :
    (rateLimitStep saturatedSession (1 / 2)).2 = 1 / 2 ∧
    (rateLimitStep saturatedSession (1 / 2)).1.req_count = 0 ∧
    (rateLimitStep saturatedSession (1 / 2)).1.last_req =
      1 / 2 + (rateLimitStep saturatedSession (1 / 2)).2 ∧
    (rateLimitStep saturatedSession 5).2 = 0 ∧
    (rateLimitStep saturatedSession 5).1.req_count = 0 ∧
    (rateLimitStep saturatedSession 5).1.last_req = 5 ∧
    seqSleep exampleSession pingJsonEndpoint { status_code := 200, text := "ok" }
      twoSecondsApart 16 = 0 := by
  have hd12 : (1 : ℚ) / 2 - saturatedSession.last_req < 1 := by
    show (1 : ℚ) / 2 - 0 < 1
    norm_num
  have hd5 : ¬ ((5 : ℚ) - saturatedSession.last_req < 1) := by
    show ¬ ((5 : ℚ) - 0 < 1)
    norm_num
  have ht0 : (0 : ℚ) ≤ twoSecondsApart 0 := by
    show (0 : ℚ) ≤ ((0 : Nat) : ℚ)
    norm_num
  have hsp : ∀ n, twoSecondsApart n + 1 < twoSecondsApart (n + 1) := by
    intro n
    show ((2 * n : Nat) : ℚ) + 1 < ((2 * (n + 1) : Nat) : ℚ)
    push_cast
    linarith
  have h1 := C4_rate_limit_behaviour saturatedSession (1 / 2) []
    { base_url := none, headers := none, proxies := none }
    pingJsonEndpoint { status_code := 200, text := "ok" } twoSecondsApart
    (by decide) ht0 hsp
  have h2 := C4_rate_limit_behaviour saturatedSession 5 []
    { base_url := none, headers := none, proxies := none }
    pingJsonEndpoint { status_code := 200, text := "ok" } twoSecondsApart
    (by decide) ht0 hsp
  obtain ⟨hs1, hc1, hl1⟩ := h1.1 hd12
  obtain ⟨hs2, hc2, hl2⟩ := h2.2.1 hd5
  refine ⟨?_, hc1, hl1, hs2, hc2, hl2, h1.2.2 16⟩
  rw [hs1]
  show (1 : ℚ) - (1 / 2 - 0) = 1 / 2
  norm_num
